import Mathlib

/-!
Verification of the midi-blackbox recording engine (`src/main.rs`).

The Rust source is shallowly embedded: `Instant`s are naturals counting
microseconds, machine integers are naturals reduced modulo `2^w` exactly where
the source casts, fallible operations return `Except`/`Option` (with `none`
modelling a panic, e.g. a failed `assert!` or an out-of-bounds slice index),
and filesystem effects are threaded through an explicit `FileSystem` value
driven by an environment record that decides the outcome of each OS call.
-/

namespace MidiBlackbox

/-- Channel-voice messages (midly `MidiMessage`): data fields are the
library's range-restricted `u7` (here `Fin 128`) and `u14` (`Fin 16384`). -/
inductive MidiMessage where
  | noteOff (key vel : Fin 128)
  | noteOn (key vel : Fin 128)
  | aftertouch (key vel : Fin 128)
  | controller (ctrl value : Fin 128)
  | programChange (program : Fin 128)
  | channelAftertouch (vel : Fin 128)
  | pitchBend (bend : Fin 16384)
deriving DecidableEq, Repr

/-- System Common messages (midly `SystemCommon`); the recorder never stores
them, so only their existence and parse shape matter. -/
inductive SystemCommon where
  | sysEx (data : List (Fin 128))
  | midiTimeCodeQuarterFrame (value : Fin 128)
  | songPosition (pos : Fin 16384)
  | songSelect (song : Fin 128)
  | tuneRequest
deriving DecidableEq, Repr

/-- System Realtime messages (midly `SystemRealtime`). -/
inductive SystemRealtime where
  | timingClock
  | start
  | continueMsg
  | stop
  | activeSensing
  | resetMsg
  | undefined (byte : Fin 256)
deriving DecidableEq, Repr

/-- Live MIDI events as produced by midly `LiveEvent::parse`. -/
inductive LiveEvent where
  | midi (channel : Fin 16) (message : MidiMessage)
  | common (msg : SystemCommon)
  | realtime (msg : SystemRealtime)
deriving DecidableEq, Repr

/-- Track event payloads as the recorder produces them (midly
`TrackEventKind`, restricted to the constructors this program emits:
channel-voice events and the end-of-track meta event). -/
inductive TrackEventKind where
  | midi (channel : Fin 16) (message : MidiMessage)
  | metaEndOfTrack
deriving DecidableEq, Repr

/-- Conversion `u28::from(u32)` of midly's restricted 28-bit integer:
a lossy truncation keeping the low 28 bits. -/
def u28from (n : Nat) : Nat := n % 2 ^ 28

/-- One buffered entry (midly `TrackEvent`): a 28-bit delta time in ticks and
the payload. The delta is stored as the value of the `u28`. -/
structure TrackEvent where
  delta : Nat
  kind : TrackEventKind
deriving DecidableEq, Repr

/-- Constant `DEFAULT_USEC_PER_TICK` from the source. -/
def DEFAULT_USEC_PER_TICK : Nat := 500

/-- Constant `DEFAULT_TICKS_PER_BEAT` from the source. -/
def DEFAULT_TICKS_PER_BEAT : Nat := 1000

/-- The recording session state (`struct RecordingSession`): optional
`Instant`s in microseconds, the `u32` tick duration, and the event buffer. -/
structure RecordingSession where
  first_event_time : Option Nat
  last_event_time : Option Nat
  usec_per_tick : Nat
  events : List TrackEvent
deriving DecidableEq, Repr

/-- Constructor `RecordingSession::new`. -/
def RecordingSession.new : RecordingSession :=
  { first_event_time := none
    last_event_time := none
    usec_per_tick := DEFAULT_USEC_PER_TICK
    events := [] }

/-- Function `RecordingSession::live_event_to_track_event_kind`: only
channel-voice events are storable; Common and Realtime map to `none`. -/
def live_event_to_track_event_kind : LiveEvent → Option TrackEventKind
  | .midi channel message => some (.midi channel message)
  | .common _ => none
  | .realtime _ => none

/-- Method `RecordingSession::add_event`. `now` is the value of
`Instant::now()` at the call, in microseconds; `Instant` subtraction
saturates at zero exactly as `Nat` subtraction does. The delta computation
mirrors the source's casts: `elapsed.as_micros() as u64` truncates the
`u128` microsecond count to 64 bits, the division result is cast `as u32`,
and `u28::from` keeps the low 28 bits. Note that both timestamps are
updated even when the event is not storable (Common/Realtime). -/
def RecordingSession.add_event (s : RecordingSession) (event : LiveEvent)
    (now : Nat) : RecordingSession :=
  let first := if s.first_event_time.isNone then some now else s.first_event_time
  let elapsed_since_last : Nat :=
    match s.last_event_time with
    | some t => now - t
    | none => 0
  let delta_ticks : Nat := ((elapsed_since_last % 2 ^ 64) / s.usec_per_tick) % 2 ^ 32
  match live_event_to_track_event_kind event with
  | some kind =>
      { s with
        first_event_time := first
        last_event_time := some now
        events := s.events ++ [{ delta := u28from delta_ticks, kind := kind }] }
  | none =>
      { s with
        first_event_time := first
        last_event_time := some now }

/-- Method `RecordingSession::reset`: clear both timestamps and the buffer
(the tick duration is untouched). -/
def RecordingSession.reset (s : RecordingSession) : RecordingSession :=
  { s with
    first_event_time := none
    last_event_time := none
    events := [] }

/-! ## Serialization of the Standard MIDI File container -/

/-- Modelled from the spec: variable-length-quantity encoding used by the
Standard MIDI File format for delta times (the byte-level writer lives in
the external midly crate, not under `src/`). Seven-bit groups, most
significant first, continuation bit `0x80` on every byte but the last;
values below `2^28` take at most four bytes. -/
def vlq_encode (n : Nat) : List Nat :=
  if n < 128 then [n]
  else if n < 128 ^ 2 then [n / 128 + 128, n % 128]
  else if n < 128 ^ 3 then
    [n / 128 ^ 2 + 128, (n / 128) % 128 + 128, n % 128]
  else
    [(n / 128 ^ 3) % 128 + 128, (n / 128 ^ 2) % 128 + 128,
      (n / 128) % 128 + 128, n % 128]

/-- Modelled from the spec: VLQ decoding, reading up to the four bytes a
value below `2^28` can occupy; a byte below `0x80` ends the quantity.
Returns the value and the remaining input. -/
def vlq_decode (bytes : List Nat) : Option (Nat × List Nat) :=
  match bytes with
  | [] => none
  | b1 :: rest1 =>
    if b1 < 128 then some (b1, rest1)
    else
      match rest1 with
      | [] => none
      | b2 :: rest2 =>
        if b2 < 128 then some ((b1 - 128) * 128 + b2, rest2)
        else
          match rest2 with
          | [] => none
          | b3 :: rest3 =>
            if b3 < 128 then
              some (((b1 - 128) * 128 + (b2 - 128)) * 128 + b3, rest3)
            else
              match rest3 with
              | [] => none
              | b4 :: rest4 =>
                if b4 < 128 then
                  some ((((b1 - 128) * 128 + (b2 - 128)) * 128 + (b3 - 128)) * 128
                    + b4, rest4)
                else none

/-- Modelled from the spec: status byte and data bytes of a channel-voice
message, per the MIDI standard (pitch bend is sent LSB first). -/
def message_status_data (channel : Fin 16) :
    MidiMessage → Nat × List Nat
  | .noteOff key vel => (0x80 + channel.val, [key.val, vel.val])
  | .noteOn key vel => (0x90 + channel.val, [key.val, vel.val])
  | .aftertouch key vel => (0xA0 + channel.val, [key.val, vel.val])
  | .controller ctrl value => (0xB0 + channel.val, [ctrl.val, value.val])
  | .programChange program => (0xC0 + channel.val, [program.val])
  | .channelAftertouch vel => (0xD0 + channel.val, [vel.val])
  | .pitchBend bend => (0xE0 + channel.val, [bend.val % 128, bend.val / 128])

/-- Modelled from the spec: byte encoding of one track event payload. The
end-of-track marker is the meta event `FF 2F 00`; channel-voice events are
written with an explicit status byte (no running status). -/
def track_event_bytes : TrackEventKind → List Nat
  | .midi channel message =>
      let sd := message_status_data channel message
      sd.1 :: sd.2
  | .metaEndOfTrack => [0xFF, 0x2F, 0x00]

/-- Modelled from the spec: the body of the track chunk — each entry is its
delta time in VLQ followed by its payload bytes. -/
def track_data (events : List TrackEvent) : List Nat :=
  (events.map (fun ev => vlq_encode ev.delta ++ track_event_bytes ev.kind)).flatten

/-- Big-endian 32-bit encoding of a natural below `2^32`. -/
def be32 (n : Nat) : List Nat :=
  [n / 2 ^ 24 % 256, n / 2 ^ 16 % 256, n / 2 ^ 8 % 256, n % 256]

/-- Big-endian 16-bit encoding of a natural below `2^16`. -/
def be16 (n : Nat) : List Nat :=
  [n / 256 % 256, n % 256]

/-- Modelled from the spec: midly `Smf::write` for the data this program
produces — an `MThd` header chunk (format 0 = single track, one track,
metrical division with the given ticks per beat as a 15-bit value with a
clear top bit) followed by one `MTrk` chunk whose 32-bit length prefixes
the track data. -/
def smf_write (ticksPerBeat : Nat) (events : List TrackEvent) : List Nat :=
  [0x4D, 0x54, 0x68, 0x64] ++ be32 6 ++ be16 0 ++ be16 1 ++
    be16 (ticksPerBeat % 2 ^ 15) ++
    [0x4D, 0x54, 0x72, 0x6B] ++ be32 ((track_data events).length % 2 ^ 32) ++
    track_data events

/-! ## The flush path (`target_directory` / `save_to_file`) -/

/-- Kinds of `std::io::Error` this program can produce or receive. -/
inductive IoErrorKind where
  | alreadyExists
  | notFound
  | permissionDenied
  | otherKind
deriving DecidableEq, Repr

/-- An `std::io::Error`: a kind plus a message. -/
structure IoError where
  kind : IoErrorKind
  msg : String
deriving DecidableEq, Repr

/-- The filesystem as flush observes it: a set of directories (paths as
segment lists) and a map from file paths to contents. -/
structure FileSystem where
  dirs : List (List String)
  files : List (List String × List Nat)
deriving DecidableEq, Repr

/-- Environment of one `save_to_file` call: the wall-clock date and formatted
timestamp returned by `chrono::Local::now()`, and the outcome of each
fallible OS call (`create_dir_all`, the non-collision part of `open`, and
`write_all`); `none` means the call succeeds. A name collision is decided by
the `FileSystem` itself, not by this record. -/
structure FlushEnv where
  year : Nat
  month : Nat
  day : Nat
  timeStr : String
  dirCreateErr : Option IoError
  dirIsDir : Bool
  openErr : Option IoError
  writeErr : Option IoError
deriving DecidableEq, Repr

/-- The directory `base/year/month/day` a flush targets (month and day as
unpadded decimal strings, as `Datelike::month()/day()` stringify). -/
def flush_dir (base : String) (env : FlushEnv) : List String :=
  [base, toString env.year, toString env.month, toString env.day]

/-- Function `RecordingSession::target_directory`: build
`base/year/month/day`, run `fs::create_dir_all` (outcome from the
environment; on success the directory is recorded), then fail with a fresh
`AlreadyExists` error if the path is not a directory. -/
def target_directory (base : String) (env : FlushEnv) (fs : FileSystem) :
    Except IoError (List String) × FileSystem :=
  let directory := flush_dir base env
  match env.dirCreateErr with
  | some e => (.error e, fs)
  | none =>
    let fs₁ : FileSystem :=
      { fs with dirs := if directory ∈ fs.dirs then fs.dirs else directory :: fs.dirs }
    if env.dirIsDir then (.ok directory, fs₁)
    else (.error { kind := .alreadyExists,
                   msg := "Path exists but is not a directory" }, fs₁)

/-- Recording duration in whole seconds: the source computes
`duration.as_secs_f64().ceil() as i64`; on microsecond-precision durations
this is the ceiling of the microsecond count divided by `10^6`. -/
def duration_secs_ceil (usec : Nat) : Nat := (usec + 999999) / 1000000

/-- File name derived in `save_to_file`:
`format!("{}-{}e-{}s.mid", time, events.len() + 1, duration_ceil)`. -/
def flush_file_name (env : FlushEnv) (numEntries : Nat) (durSecs : Nat) : String :=
  env.timeStr ++ "-" ++ toString numEntries ++ "e-" ++ toString durSecs ++ "s.mid"

/-- The full path of the file a flush of session `s` would create. -/
def flush_path (s : RecordingSession) (base : String) (env : FlushEnv) :
    List String :=
  flush_dir base env ++ [flush_file_name env (s.events.length + 1)
    (duration_secs_ceil (s.last_event_time.getD 0 - s.first_event_time.getD 0))]

/-- The end-of-track entry pushed by `save_to_file` (`delta` is
`u28::from(0)`). -/
def endOfTrackEvent : TrackEvent :=
  { delta := u28from 0, kind := .metaEndOfTrack }

/-- Method `RecordingSession::save_to_file`. Returns `none` when an
`assert!` fails (a panic); otherwise the `Result`, the session state after
the call, and the filesystem after the call. Mirrors the source order:
empty-session early return; assertion; directory creation; file-name
computation (entry count `events.len() + 1`, duration in whole seconds);
push of the end-of-track entry; serialization; create-only open
(`create_new(true)`, failing with `AlreadyExists` when the name is taken);
write; and reset only on success. A failed write leaves the just-created
file behind with no content. -/
def RecordingSession.save_to_file (s : RecordingSession) (base : String)
    (env : FlushEnv) (fs : FileSystem) :
    Option (Except IoError Unit × RecordingSession × FileSystem) :=
  if s.first_event_time.isNone then
    if s.events.isEmpty then some (.ok (), s, fs) else none
  else if !(!s.events.isEmpty && s.last_event_time.isSome) then none
  else
    match target_directory base env fs with
    | (.error e, fs₁) => some (.error e, s, fs₁)
    | (.ok directory, fs₁) =>
      let numEntries := s.events.length + 1
      let durSecs := duration_secs_ceil
        (s.last_event_time.getD 0 - s.first_event_time.getD 0)
      let file_path := directory ++ [flush_file_name env numEntries durSecs]
      let s₁ : RecordingSession := { s with events := s.events ++ [endOfTrackEvent] }
      let output := smf_write DEFAULT_TICKS_PER_BEAT s₁.events
      if (fs₁.files.lookup file_path).isSome then
        some (.error { kind := .alreadyExists,
                       msg := "File exists" }, s₁, fs₁)
      else
        match env.openErr with
        | some e => some (.error e, s₁, fs₁)
        | none =>
          match env.writeErr with
          | some e =>
            some (.error e, s₁, { fs₁ with files := (file_path, []) :: fs₁.files })
          | none =>
            some (.ok (), s₁.reset,
              { fs₁ with files := (file_path, output) :: fs₁.files })

/-! ## The MIDI receive callback -/

/-- Decode one data byte: values are valid exactly below `0x80`. -/
def u7dec (n : Nat) : Option (Fin 128) :=
  if h : n < 128 then some ⟨n, h⟩ else none

/-- Modelled from the spec: midly `LiveEvent::parse` (external crate, not
under `src/`), per §4.1 and the MIDI standard. Channel-voice messages
(status `0x80`–`0xEF`) need their exact data-byte count with each data byte
below `0x80`; System Common messages are `0xF0`–`0xF7`; System Realtime
messages are the single bytes `0xF8`–`0xFF`. Anything else fails to parse
and is silently dropped by the caller. -/
def parse_live_event (message : List Nat) : Option LiveEvent :=
  match message with
  | [] => none
  | status :: data =>
    if status < 0x80 then none
    else if status < 0xF0 then
      let channel : Fin 16 := ⟨status % 16, Nat.mod_lt _ (by omega)⟩
      match status / 16, data with
      | 8, [k, v] =>
        (u7dec k).bind fun key => (u7dec v).map fun vel =>
          .midi channel (.noteOff key vel)
      | 9, [k, v] =>
        (u7dec k).bind fun key => (u7dec v).map fun vel =>
          .midi channel (.noteOn key vel)
      | 10, [k, v] =>
        (u7dec k).bind fun key => (u7dec v).map fun vel =>
          .midi channel (.aftertouch key vel)
      | 11, [c, v] =>
        (u7dec c).bind fun ctrl => (u7dec v).map fun value =>
          .midi channel (.controller ctrl value)
      | 12, [p] =>
        (u7dec p).map fun program => .midi channel (.programChange program)
      | 13, [v] =>
        (u7dec v).map fun vel => .midi channel (.channelAftertouch vel)
      | 14, [l, m] =>
        (u7dec l).bind fun lsb => (u7dec m).map fun msb =>
          .midi channel (.pitchBend ⟨msb.val * 128 + lsb.val, by omega⟩)
      | _, _ => none
    else
      match status, data with
      | 0xF0, _ =>
        if data.getLast? = some 0xF7 then
          (data.dropLast.mapM u7dec).map fun ds => .common (.sysEx ds)
        else none
      | 0xF1, [v] => (u7dec v).map fun value => .common (.midiTimeCodeQuarterFrame value)
      | 0xF2, [l, m] =>
        (u7dec l).bind fun lsb => (u7dec m).map fun msb =>
          .common (.songPosition ⟨msb.val * 128 + lsb.val, by omega⟩)
      | 0xF3, [v] => (u7dec v).map fun song => .common (.songSelect song)
      | 0xF6, [] => some (.common .tuneRequest)
      | 0xF8, [] => some (.realtime .timingClock)
      | 0xF9, [] => some (.realtime (.undefined ⟨0xF9, by omega⟩))
      | 0xFA, [] => some (.realtime .start)
      | 0xFB, [] => some (.realtime .continueMsg)
      | 0xFC, [] => some (.realtime .stop)
      | 0xFD, [] => some (.realtime (.undefined ⟨0xFD, by omega⟩))
      | 0xFE, [] => some (.realtime .activeSensing)
      | 0xFF, [] => some (.realtime .resetMsg)
      | _, _ => none

/-- What one callback invocation does with the raw message. -/
inductive CallbackAction where
  | filtered
  | unparsed
  | delivered (e : LiveEvent)
deriving DecidableEq, Repr

/-- The MIDI receive callback body from `do_recording`: it reads
`message[0]` unconditionally — on a zero-length message this is an
out-of-bounds slice index, modelled as `none` (panic). Otherwise Active
Sensing (`0xFE`) and Timing Clock (`0xF8`) are filtered early, a parse
failure drops the message, and a parsed event is delivered to
`add_event`. -/
def midi_callback (message : List Nat) : Option CallbackAction :=
  match message with
  | [] => none
  | b :: _ =>
    if b = 0xFE ∨ b = 0xF8 then some .filtered
    else
      match parse_live_event message with
      | some e => some (.delivered e)
      | none => some .unparsed

/-! ## Parsing the produced container back -/

/-- Modelled from the spec: parse one track event — a VLQ delta time
followed by either the end-of-track meta event `FF 2F 00` or a
channel-voice message with an explicit status byte. -/
def parse_event (bytes : List Nat) : Option (TrackEvent × List Nat) :=
  match vlq_decode bytes with
  | none => none
  | some (delta, rest) =>
    match rest with
    | [] => none
    | status :: tail =>
      if status = 0xFF then
        match tail with
        | 0x2F :: 0x00 :: tail₂ =>
          some ({ delta := delta, kind := .metaEndOfTrack }, tail₂)
        | _ => none
      else if hlo : status < 0x80 then none
      else if hhi : status < 0xF0 then
        let channel : Fin 16 := ⟨status % 16, Nat.mod_lt _ (by omega)⟩
        if status / 16 = 8 then
          match tail with
          | k :: v :: tail₂ =>
            (u7dec k).bind fun key => (u7dec v).map fun vel =>
              ({ delta := delta, kind := .midi channel (.noteOff key vel) }, tail₂)
          | _ => none
        else if status / 16 = 9 then
          match tail with
          | k :: v :: tail₂ =>
            (u7dec k).bind fun key => (u7dec v).map fun vel =>
              ({ delta := delta, kind := .midi channel (.noteOn key vel) }, tail₂)
          | _ => none
        else if status / 16 = 10 then
          match tail with
          | k :: v :: tail₂ =>
            (u7dec k).bind fun key => (u7dec v).map fun vel =>
              ({ delta := delta, kind := .midi channel (.aftertouch key vel) }, tail₂)
          | _ => none
        else if status / 16 = 11 then
          match tail with
          | c :: v :: tail₂ =>
            (u7dec c).bind fun ctrl => (u7dec v).map fun value =>
              ({ delta := delta, kind := .midi channel (.controller ctrl value) },
                tail₂)
          | _ => none
        else if status / 16 = 12 then
          match tail with
          | p :: tail₂ =>
            (u7dec p).map fun program =>
              ({ delta := delta, kind := .midi channel (.programChange program) },
                tail₂)
          | _ => none
        else if status / 16 = 13 then
          match tail with
          | v :: tail₂ =>
            (u7dec v).map fun vel =>
              ({ delta := delta, kind := .midi channel (.channelAftertouch vel) },
                tail₂)
          | _ => none
        else
          match tail with
          | l :: m :: tail₂ =>
            (u7dec l).bind fun lsb => (u7dec m).map fun msb =>
              ({ delta := delta,
                 kind := .midi channel
                   (.pitchBend ⟨msb.val * 128 + lsb.val, by omega⟩) }, tail₂)
          | _ => none
      else none

/-- Modelled from the spec: parse a sequence of track events to the end of
the chunk; the fuel argument bounds the number of events and is passed the
byte count (every event consumes at least one byte). -/
def parse_events_aux (fuel : Nat) (bytes : List Nat) : Option (List TrackEvent) :=
  match bytes with
  | [] => some []
  | b :: rest =>
    match fuel with
    | 0 => none
    | fuel' + 1 =>
      match parse_event (b :: rest) with
      | some (ev, tail) => (parse_events_aux fuel' tail).map fun evs => ev :: evs
      | none => none

/-- Result of parsing a Standard MIDI File: header fields and the track's
entries. -/
structure ParsedSmf where
  format : Nat
  ntracks : Nat
  ticksPerBeat : Nat
  events : List TrackEvent
deriving DecidableEq, Repr

/-- Modelled from the spec: parse a single-track Standard MIDI File — the
`MThd` chunk of length 6 with a metrical division (top bit of the division
clear), then one `MTrk` chunk whose declared 32-bit length must be exactly
the remaining byte count, whose body parses as a sequence of track
events. -/
def parse_smf (bytes : List Nat) : Option ParsedSmf :=
  match bytes with
  | m1 :: m2 :: m3 :: m4 :: h1 :: h2 :: h3 :: h4 :: f1 :: f2 :: n1 :: n2 ::
      d1 :: d2 :: k1 :: k2 :: k3 :: k4 :: l1 :: l2 :: l3 :: l4 :: rest =>
    if [m1, m2, m3, m4] = [0x4D, 0x54, 0x68, 0x64] ∧ [h1, h2, h3, h4] = [0, 0, 0, 6] ∧
        [k1, k2, k3, k4] = [0x4D, 0x54, 0x72, 0x6B] ∧ d1 < 128 ∧
        rest.length = ((l1 * 256 + l2) * 256 + l3) * 256 + l4 then
      (parse_events_aux rest.length rest).map fun evs =>
        { format := f1 * 256 + f2
          ntracks := n1 * 256 + n2
          ticksPerBeat := d1 * 256 + d2
          events := evs }
    else none
  | _ => none

/-! ## Reachable session states -/

/-- Feed a list of events with their arrival times to a session. -/
def feed (s : RecordingSession) : List (LiveEvent × Nat) → RecordingSession
  | [] => s
  | (e, t) :: rest => feed (s.add_event e t) rest

/-- Session states reachable from a fresh session. `Reach s t` holds when
`s` arises from `RecordingSession.new` through `add_event` calls at
nondecreasing instants (the `Instant` clock is monotone), all at most `t`,
and through non-panicking `save_to_file` calls. -/
inductive Reach : RecordingSession → Nat → Prop where
  | init (t : Nat) : Reach RecordingSession.new t
  | add {s : RecordingSession} {t : Nat} (e : LiveEvent) {now : Nat}
      (hr : Reach s t) (ht : t ≤ now) : Reach (s.add_event e now) now
  | flush {s : RecordingSession} {t : Nat} (base : String) (env : FlushEnv)
      (fs : FileSystem) {r : Except IoError Unit} {s' : RecordingSession}
      {fs' : FileSystem} (hr : Reach s t)
      (hs : s.save_to_file base env fs = some (r, s', fs')) : Reach s' t

/-! ## Invariant lemmas -/

theorem u28from_lt (n : Nat) : u28from n < 2 ^ 28 :=
  Nat.mod_lt _ (by norm_num)

theorem add_event_first (s : RecordingSession) (e : LiveEvent) (now : Nat) :
    (s.add_event e now).first_event_time =
      if s.first_event_time.isNone then some now else s.first_event_time := by
  unfold RecordingSession.add_event
  cases live_event_to_track_event_kind e <;> rfl

theorem add_event_last (s : RecordingSession) (e : LiveEvent) (now : Nat) :
    (s.add_event e now).last_event_time = some now := by
  unfold RecordingSession.add_event
  cases live_event_to_track_event_kind e <;> rfl

theorem add_event_usec (s : RecordingSession) (e : LiveEvent) (now : Nat) :
    (s.add_event e now).usec_per_tick = s.usec_per_tick := by
  unfold RecordingSession.add_event
  cases live_event_to_track_event_kind e <;> rfl

theorem add_event_events (s : RecordingSession) (e : LiveEvent) (now : Nat) :
    (s.add_event e now).events = s.events ++
      (match live_event_to_track_event_kind e with
        | some kind =>
          [{ delta := u28from ((((match s.last_event_time with
              | some t => now - t
              | none => 0) % 2 ^ 64) / s.usec_per_tick) % 2 ^ 32),
             kind := kind }]
        | none => []) := by
  unfold RecordingSession.add_event
  cases live_event_to_track_event_kind e
  · simp
  · simp

/-- Structural invariant satisfied by every reachable session state. -/
structure Inv (s : RecordingSession) (t : Nat) : Prop where
  usec : s.usec_per_tick = DEFAULT_USEC_PER_TICK
  empty_of_first_none : s.first_event_time = none → s.events = [] ∧ s.last_event_time = none
  last_of_first : ∀ f, s.first_event_time = some f → ∃ l, s.last_event_time = some l
  order : ∀ f ∈ s.first_event_time, ∀ l ∈ s.last_event_time, f ≤ l ∧ l ≤ t
  deltas : ∀ ev ∈ s.events, ev.delta < 2 ^ 28

theorem inv_new (t : Nat) : Inv RecordingSession.new t := by
  constructor <;> simp [RecordingSession.new]

theorem inv_add {s : RecordingSession} {t : Nat} (e : LiveEvent) {now : Nat}
    (h : Inv s t) (ht : t ≤ now) : Inv (s.add_event e now) now := by
  constructor
  · rw [add_event_usec]; exact h.usec
  · rw [add_event_first]
    split
    · simp
    · intro hn
      next hns =>
        rcases hfs : s.first_event_time with _ | f
        · simp [hfs] at hns
        · rw [hfs] at hn; cases hn
  · intro f _
    rw [add_event_last]
    exact ⟨now, rfl⟩
  · intro f hf l hl
    rw [add_event_last] at hl
    simp at hl
    subst hl
    rw [add_event_first] at hf
    split at hf
    · simp at hf; omega
    · next hns =>
      rcases hfs : s.first_event_time with _ | f₀
      · simp [hfs] at hns
      · rw [hfs] at hf
        simp at hf
        rcases h.last_of_first f₀ hfs with ⟨l₀, hl₀⟩
        rcases h.order f₀ (by simp [hfs]) l₀ (by simp [hl₀]) with ⟨h1, h2⟩
        omega
  · intro ev hev
    rw [add_event_events] at hev
    rcases List.mem_append.mp hev with hm | hm
    · exact h.deltas ev hm
    · split at hm
      · simp at hm
        subst hm
        exact u28from_lt _
      · simp at hm

/-- Characterization of the possible outcomes of `save_to_file`: the idle
no-op; an error with state exactly preserved (directory stage); an error
with the end-of-track entry appended (file stage); or success with the
session reset. -/
theorem save_cases {s : RecordingSession} {base : String} {env : FlushEnv}
    {fs : FileSystem} {r : Except IoError Unit} {s' : RecordingSession}
    {fs' : FileSystem}
    (h : s.save_to_file base env fs = some (r, s', fs')) :
    (s.first_event_time = none ∧ s.events = [] ∧ r = Except.ok () ∧ s' = s ∧ fs' = fs) ∨
    (s.first_event_time ≠ none ∧ s.events ≠ [] ∧ s.last_event_time ≠ none ∧
      ((∃ e, r = Except.error e ∧ s' = s) ∨
       (∃ e, r = Except.error e ∧
          s' = { s with events := s.events ++ [endOfTrackEvent] }) ∨
       (r = Except.ok () ∧
          s' = { s with first_event_time := none, last_event_time := none,
                        events := [] }))) := by
  unfold RecordingSession.save_to_file at h
  split at h
  · next hfn =>
    split at h
    · next hemp =>
      simp only [Option.some.injEq, Prod.mk.injEq] at h
      obtain ⟨rfl, rfl, rfl⟩ := h
      exact Or.inl ⟨Option.isNone_iff_eq_none.mp hfn,
        List.isEmpty_iff.mp hemp, rfl, rfl, rfl⟩
    · exact absurd h (by simp)
  · next hfn =>
    split at h
    · exact absurd h (by simp)
    · next hcond =>
      have hfne : s.first_event_time ≠ none := by
        intro hx; rw [hx] at hfn; simp at hfn
      have hcond' : s.events ≠ [] ∧ s.last_event_time ≠ none := by
        constructor
        · intro hx
          apply hcond
          simp [hx]
        · intro hx
          apply hcond
          simp [hx]
      refine Or.inr ⟨hfne, hcond'.1, hcond'.2, ?_⟩
      rcases htd : target_directory base env fs with ⟨res, fs₁⟩
      rw [htd] at h
      rcases res with e | directory
      · simp only [Option.some.injEq, Prod.mk.injEq] at h
        obtain ⟨rfl, rfl, rfl⟩ := h
        exact Or.inl ⟨e, rfl, rfl⟩
      · simp only at h
        split at h
        · simp only [Option.some.injEq, Prod.mk.injEq] at h
          obtain ⟨rfl, rfl, rfl⟩ := h
          exact Or.inr (Or.inl ⟨_, rfl, rfl⟩)
        · split at h
          · next e heq =>
            simp only [Option.some.injEq, Prod.mk.injEq] at h
            obtain ⟨rfl, rfl, rfl⟩ := h
            exact Or.inr (Or.inl ⟨e, rfl, rfl⟩)
          · split at h
            · next e heq =>
              simp only [Option.some.injEq, Prod.mk.injEq] at h
              obtain ⟨rfl, rfl, rfl⟩ := h
              exact Or.inr (Or.inl ⟨e, rfl, rfl⟩)
            · simp only [Option.some.injEq, Prod.mk.injEq] at h
              obtain ⟨rfl, rfl, rfl⟩ := h
              exact Or.inr (Or.inr ⟨rfl, rfl⟩)

theorem inv_flush {s : RecordingSession} {t : Nat} {base : String}
    {env : FlushEnv} {fs : FileSystem} {r : Except IoError Unit}
    {s' : RecordingSession} {fs' : FileSystem}
    (h : Inv s t) (hs : s.save_to_file base env fs = some (r, s', fs')) :
    Inv s' t := by
  rcases save_cases hs with ⟨_, _, _, rfl, _⟩ | ⟨hf, he, hl, hc⟩
  · exact h
  · rcases hc with ⟨e, _, rfl⟩ | ⟨e, _, rfl⟩ | ⟨_, rfl⟩
    · exact h
    · constructor
      · exact h.usec
      · intro hn; exact absurd hn hf
      · intro f hf'; exact h.last_of_first f hf'
      · intro f hf' l hl'; exact h.order f hf' l hl'
      · intro ev hev
        rcases List.mem_append.mp hev with hm | hm
        · exact h.deltas ev hm
        · simp only [List.mem_singleton] at hm
          subst hm
          simp [endOfTrackEvent, u28from]
    · constructor
      · exact h.usec
      · intro _; exact ⟨rfl, rfl⟩
      · intro f hf'; simp at hf'
      · intro f hf'; simp at hf'
      · intro ev hev; simp at hev

/-- Every reachable state satisfies the structural invariant. -/
theorem reach_inv {s : RecordingSession} {t : Nat} (h : Reach s t) : Inv s t := by
  induction h with
  | init t => exact inv_new t
  | add e hr ht ih => exact inv_add e ih ht
  | flush base env fs hr hs ih => exact inv_flush ih hs

/-! ## Concrete fixtures used by witnesses and counterexamples -/

/-- A session that received exactly one parsed System Realtime Start message
(raw byte `0xFA`), which the callback's `0xFE`/`0xF8` filter lets through
and the translator then drops: both timestamps become set while the buffer
stays empty. -/
def ghostSession : RecordingSession :=
  RecordingSession.new.add_event (.realtime .start) 0

/-- A session holding one NoteOn entry, received at instant 0. -/
def sessionOneNote : RecordingSession :=
  RecordingSession.new.add_event (.midi 0 (.noteOn 60 100)) 0

/-- A flush environment in which every OS call succeeds. -/
def cleanEnv : FlushEnv :=
  { year := 2026, month := 1, day := 1, timeStr := "2026-01-01_00:00:00",
    dirCreateErr := none, dirIsDir := true, openErr := none, writeErr := none }

/-- The empty filesystem. -/
def emptyFS : FileSystem := { dirs := [], files := [] }

/-- Decidable equality for `Except`, needed to evaluate flush results. -/
instance {E A : Type} [DecidableEq E] [DecidableEq A] : DecidableEq (Except E A) := fun x y =>
  match x, y with
  | .ok a, .ok b =>
    if h : a = b then .isTrue (congrArg Except.ok h)
    else .isFalse fun hc => h (Except.ok.inj hc)
  | .error a, .error b =>
    if h : a = b then .isTrue (congrArg Except.error h)
    else .isFalse fun hc => h (Except.error.inj hc)
  | .ok _, .error _ => .isFalse fun hc => Except.noConfusion hc
  | .error _, .ok _ => .isFalse fun hc => Except.noConfusion hc

/-- The filesystem produced by the witness flush of `sessionOneNote`. -/
def oneNoteFS : FileSystem :=
  { dirs := [["archive", "2026", "1", "1"]],
    files := [(["archive", "2026", "1", "1", "2026-01-01_00:00:00-2e-0s.mid"],
      [77, 84, 104, 100, 0, 0, 0, 6, 0, 0, 0, 1, 3, 232, 77, 84, 114, 107,
       0, 0, 0, 8, 0, 144, 60, 100, 0, 255, 47, 0])] }

/-! ## Claims -/

/-- Claim C2 — code bug. The state reached from a fresh session by a single
`add_event` call carrying a parsed System Realtime Start message (raw byte
`0xFA`, which the callback's filter passes) violates the claimed invariant
that the buffer is empty iff `first_event_time` is unset: its buffer is
empty while `first_event_time` is set, because `add_event` records the
timestamps before discovering the event is not storable. -/
theorem c2_empty_iff_first_unset_fails :
    Reach ghostSession 0 ∧ ghostSession.events = [] ∧
      ghostSession.first_event_time = some 0 :=
  ⟨Reach.add _ (Reach.init 0) (Nat.le_refl 0), by decide, by decide⟩

/-- Claim C4 — code bug. On the reachable state `ghostSession`
(`first_event_time` set, empty buffer) the assertion
`assert!(!self.events.is_empty() && self.last_event_time.is_some())` in
`save_to_file` fails, modelled as the panic result `none`: the assertion's
failure branch is reachable. -/
theorem c4_assert_failure_reachable :
    Reach ghostSession 0 ∧
      ghostSession.save_to_file "archive" cleanEnv emptyFS = none :=
  ⟨Reach.add _ (Reach.init 0) (Nat.le_refl 0), by decide⟩

/-- Claim C6 — confirmed. Flushing a reachable session whose
`first_event_time` is unset succeeds immediately with the session state and
the filesystem (directories and files) both exactly unchanged. -/
theorem c6_flush_idle_noop {s : RecordingSession} {t : Nat} (base : String)
    (env : FlushEnv) (fs : FileSystem)
    (h : Reach s t) (hidle : s.first_event_time = none) :
    s.save_to_file base env fs = some (Except.ok (), s, fs) := by
  have hemp := ((reach_inv h).empty_of_first_none hidle).1
  unfold RecordingSession.save_to_file
  simp [hidle, hemp]

/-- Witness for C6 at a concrete Idle session. -/
theorem c6_flush_idle_noop_witness :
    RecordingSession.new.first_event_time = none ∧
      RecordingSession.new.save_to_file "archive" cleanEnv emptyFS =
        some (Except.ok (), RecordingSession.new, emptyFS) :=
  ⟨by decide, c6_flush_idle_noop "archive" cleanEnv emptyFS (Reach.init 0) (by decide)⟩

/-- Claim C7 — confirmed. For a reachable session in the Recording state
(non-empty buffer), a non-panicking flush resets the session to a state
equal to a freshly constructed one exactly when it returns success. -/
theorem c7_reset_iff_success {s : RecordingSession} {t : Nat} {base : String}
    {env : FlushEnv} {fs : FileSystem} {r : Except IoError Unit}
    {s' : RecordingSession} {fs' : FileSystem}
    (h : Reach s t) (hrec : s.events ≠ [])
    (hs : s.save_to_file base env fs = some (r, s', fs')) :
    r = Except.ok () ↔ s' = RecordingSession.new := by
  have hinv := reach_inv h
  rcases save_cases hs with ⟨_, hemp, _, _, _⟩ | ⟨hf, he, hl, hc⟩
  · exact absurd hemp hrec
  · rcases hc with ⟨e, hr', rfl⟩ | ⟨e, hr', rfl⟩ | ⟨hr', rfl⟩
    · constructor
      · intro hok; rw [hok] at hr'; cases hr'
      · intro hnew
        have := congrArg RecordingSession.events hnew
        rw [RecordingSession.new] at this
        exact absurd this hrec
    · constructor
      · intro hok; rw [hok] at hr'; cases hr'
      · intro hnew
        have := congrArg RecordingSession.events hnew
        rw [RecordingSession.new] at this
        simp at this
    · constructor
      · intro _
        simp [RecordingSession.new, RecordingSession.mk.injEq, hinv.usec]
      · intro _; exact hr'

/-- Witness for C7: flushing a one-entry session in a clean environment
succeeds and yields a state equal to a fresh session. -/
theorem c7_reset_iff_success_witness :
    (sessionOneNote.events ≠ [] ∧
      sessionOneNote.save_to_file "archive" cleanEnv emptyFS =
        some (Except.ok (), RecordingSession.new, oneNoteFS)) ∧
    ((Except.ok () : Except IoError Unit) = Except.ok () ↔
      RecordingSession.new = RecordingSession.new) :=
  ⟨⟨by decide, by decide⟩,
    @c7_reset_iff_success sessionOneNote 0 "archive" cleanEnv emptyFS
      (Except.ok ()) RecordingSession.new oneNoteFS
      (Reach.add (.midi 0 (.noteOn 60 100)) (Reach.init 0) (Nat.le_refl 0))
      (by decide) (by decide)⟩

/-- Appending a channel-voice event stores exactly one entry whose delta is
computed from the previous `last_event_time`. -/
theorem add_event_midi_events (s : RecordingSession) (ch : Fin 16)
    (msg : MidiMessage) (now : Nat) :
    (s.add_event (.midi ch msg) now).events = s.events ++
      [{ delta := u28from ((((match s.last_event_time with
            | some t => now - t
            | none => 0) % 2 ^ 64) / s.usec_per_tick) % 2 ^ 32),
         kind := .midi ch msg }] := by
  rw [add_event_events]
  rfl

/-- Delta of a stored event when the previous `last_event_time` is known. -/
theorem add_event_midi_events_last (s : RecordingSession) (ch : Fin 16)
    (msg : MidiMessage) (now t : Nat) (hlast : s.last_event_time = some t) :
    (s.add_event (.midi ch msg) now).events = s.events ++
      [{ delta := u28from (((now - t) % 2 ^ 64) / s.usec_per_tick % 2 ^ 32),
         kind := .midi ch msg }] := by
  rw [add_event_midi_events, hlast]

/-- Feeding only channel-voice events grows the buffer by exactly the number
of events fed. -/
theorem feed_midi_length (l : List ((Fin 16 × MidiMessage) × Nat)) :
    ∀ s : RecordingSession,
      (feed s (l.map fun p => (LiveEvent.midi p.1.1 p.1.2, p.2))).events.length =
        s.events.length + l.length := by
  induction l with
  | nil => intro s; simp [feed]
  | cons p rest ih =>
    intro s
    simp only [List.map_cons, feed, List.length_cons]
    rw [ih, add_event_midi_events]
    simp only [List.length_append, List.length_singleton]
    omega

/-- Feeding events never disturbs the head of a non-empty buffer. -/
theorem feed_head (l : List (LiveEvent × Nat)) :
    ∀ s : RecordingSession, s.events ≠ [] →
      (feed s l).events.head? = s.events.head? := by
  induction l with
  | nil => intro s _; rfl
  | cons p rest ih =>
    intro s hne
    simp only [feed]
    rw [ih]
    · rw [add_event_events]
      cases hse : s.events with
      | nil => exact absurd hse hne
      | cons a as => simp
    · rw [add_event_events]
      intro hx
      exact hne (List.append_eq_nil.mp hx).1

/-- Claim C3 counterexample: a session whose buffer is empty (Idle in the
spec's sense) but which earlier received a dropped System Realtime message
stores, as the very first buffered entry, a delta computed from the dropped
message's arrival time — here 2000 ticks instead of the claimed 0. -/
theorem c3_first_delta_not_zero :
    ghostSession.events = [] ∧
      (ghostSession.add_event (.midi 0 (.noteOn 60 100)) 1000000).events.head?.map
        TrackEvent.delta = some 2000 ∧
      ((ghostSession.add_event (.midi 0 (.noteOn 60 100)) 1000000).events.head?.map
        TrackEvent.delta ≠ some 0) := by
  refine ⟨by decide, by decide, by decide⟩

/-- Claim C3 — amended: for any non-empty sequence of accepted
(channel-voice) events fed to a freshly constructed (or just reset) session
— one with no prior `add_event` call at all, dropped messages included —
the buffer gains exactly one entry per event and the first entry's delta is
zero. (Dropped Common/Realtime messages update `last_event_time`, so after
one of them the first stored entry's delta need not be zero.) -/
theorem c3_fresh_feed (l : List ((Fin 16 × MidiMessage) × Nat)) (hne : l ≠ []) :
    (feed RecordingSession.new
        (l.map fun p => (LiveEvent.midi p.1.1 p.1.2, p.2))).events.length = l.length ∧
    (feed RecordingSession.new
        (l.map fun p => (LiveEvent.midi p.1.1 p.1.2, p.2))).events.head?.map
      TrackEvent.delta = some 0 := by
  constructor
  · rw [feed_midi_length]
    simp [RecordingSession.new]
  · cases l with
    | nil => exact absurd rfl hne
    | cons p rest =>
      simp only [List.map_cons, feed]
      rw [feed_head]
      · rw [add_event_midi_events]
        simp [RecordingSession.new, u28from]
      · rw [add_event_midi_events]
        simp [RecordingSession.new]

/-- Witness for C3 (amended) at a concrete two-event list. -/
theorem c3_fresh_feed_witness :
    ([((0, MidiMessage.noteOn 60 100), 0), ((0, MidiMessage.noteOff 60 0), 500000)] ≠
        ([] : List ((Fin 16 × MidiMessage) × Nat))) ∧
    ((feed RecordingSession.new
        ([((0, MidiMessage.noteOn 60 100), 0),
          ((0, MidiMessage.noteOff 60 0), 500000)].map
            fun p => (LiveEvent.midi p.1.1 p.1.2, p.2))).events.length = 2 ∧
      (feed RecordingSession.new
        ([((0, MidiMessage.noteOn 60 100), 0),
          ((0, MidiMessage.noteOff 60 0), 500000)].map
            fun p => (LiveEvent.midi p.1.1 p.1.2, p.2))).events.head?.map
        TrackEvent.delta = some 0) :=
  ⟨by decide, c3_fresh_feed _ (by decide)⟩

/-- Claim C5 counterexample: two stored events 2^32 · 500 microseconds apart
(about 24.9 days). The exact tick count `floor(elapsed/500) = 2^32` does not
fit the `as u32` cast on the division result, so the stored delta is 0, not
the claimed floor value. -/
theorem c5_delta_wraps :
    ((RecordingSession.new.add_event (.midi 0 (.noteOn 60 100)) 0).add_event
        (.midi 0 (.noteOff 60 0)) 2147483648000).events.getLast?.map
      TrackEvent.delta = some 0 ∧
    (2147483648000 - 0) / 500 ≠ 0 := by
  refine ⟨by decide, by decide⟩

/-- Claim C5 — amended: for consecutive `add_event` calls at instants
`t₁ ≤ t₂` whose second event is stored, the stored delta equals
`floor((t₂ − t₁)/500)` exactly whenever that value fits the 28-bit delta
field (larger gaps are truncated by the `u64`/`u32`/`u28` casts). -/
theorem c5_delta_exact {s : RecordingSession} (e₁ : LiveEvent) (ch : Fin 16)
    (msg : MidiMessage) {t₁ t₂ : Nat}
    (husec : s.usec_per_tick = 500) (h12 : t₁ ≤ t₂)
    (hrange : (t₂ - t₁) / 500 < 2 ^ 28) :
    ((s.add_event e₁ t₁).add_event (.midi ch msg) t₂).events.getLast? =
      some { delta := (t₂ - t₁) / 500, kind := .midi ch msg } := by
  have husec' : (s.add_event e₁ t₁).usec_per_tick = 500 := by
    rw [add_event_usec, husec]
  have hlast : (s.add_event e₁ t₁).last_event_time = some t₁ := add_event_last ..
  rw [add_event_midi_events_last _ _ _ _ _ hlast, husec', List.getLast?_concat]
  simp only [Option.some.injEq, TrackEvent.mk.injEq, u28from]
  refine ⟨?_, trivial⟩
  have hc : t₂ - t₁ < 2 ^ 64 := by omega
  rw [Nat.mod_eq_of_lt hc]
  have hd : (t₂ - t₁) / 500 < 2 ^ 32 := by omega
  rw [Nat.mod_eq_of_lt hd]
  exact Nat.mod_eq_of_lt hrange

/-- Witness for C5 (amended): the spec's NoteOn/NoteOff scenario — a 500 ms
gap yields a second entry with delta 1000. -/
theorem c5_delta_exact_witness :
    (RecordingSession.new.usec_per_tick = 500 ∧ (0 : Nat) ≤ 500000 ∧
      (500000 - 0) / 500 < 2 ^ 28) ∧
    ((RecordingSession.new.add_event (.midi 0 (.noteOn 60 100)) 0).add_event
        (.midi 0 (.noteOff 60 0)) 500000).events.getLast? =
      some { delta := 1000, kind := .midi 0 (.noteOff 60 0) } :=
  ⟨⟨by decide, by decide, by decide⟩, by
    have h := @c5_delta_exact RecordingSession.new (.midi 0 (.noteOn 60 100))
      0 (.noteOff 60 0) 0 500000 (by decide) (by decide) (by decide)
    simpa using h⟩

/-- Specification of which error a failing flush reports, stage by stage:
the `create_dir_all` error as delivered; the constructed `AlreadyExists`
error when the path is not a directory; the constructed `AlreadyExists`
error on a file-name collision; then the `open` and `write_all` errors as
delivered. -/
def expected_flush_error (s : RecordingSession) (base : String) (env : FlushEnv)
    (fs : FileSystem) : Option IoError :=
  match env.dirCreateErr with
  | some e => some e
  | none =>
    if env.dirIsDir then
      if (fs.files.lookup (flush_path s base env)).isSome then
        some { kind := .alreadyExists, msg := "File exists" }
      else
        match env.openErr with
        | some e => some e
        | none => env.writeErr
    else some { kind := .alreadyExists, msg := "Path exists but is not a directory" }

/-- Specification of the session state after a failing flush: untouched when
the directory stage failed, otherwise the original state with the
end-of-track entry appended (the push happens before the file is opened). -/
def flush_error_session (s : RecordingSession) (env : FlushEnv) : RecordingSession :=
  match env.dirCreateErr with
  | some _ => s
  | none =>
    if env.dirIsDir then { s with events := s.events ++ [endOfTrackEvent] }
    else s

/-- Claim C1 — corrected. Any error returned by `save_to_file` is the
failing stage's error unmodified; the timestamps and every previously
buffered entry are preserved (the buffer is never cleared); the state is
exactly the pre-call state for directory-stage failures, but for
file-creation and write failures the end-of-track entry has already been
appended to the buffer. -/
theorem c1_flush_error_unmodified {s : RecordingSession} {base : String}
    {env : FlushEnv} {fs : FileSystem} {e : IoError} {s' : RecordingSession}
    {fs' : FileSystem}
    (hs : s.save_to_file base env fs = some (Except.error e, s', fs')) :
    expected_flush_error s base env fs = some e ∧
    s' = flush_error_session s env ∧
    s'.first_event_time = s.first_event_time ∧
    s'.last_event_time = s.last_event_time ∧
    (s'.events = s.events ∨ s'.events = s.events ++ [endOfTrackEvent]) := by
  have main : expected_flush_error s base env fs = some e ∧
      s' = flush_error_session s env := by
    unfold RecordingSession.save_to_file at hs
    unfold expected_flush_error flush_error_session
    split at hs
    · split at hs
      · exact absurd hs (by simp)
      · exact absurd hs (by simp)
    · split at hs
      · exact absurd hs (by simp)
      · unfold target_directory at hs
        rcases hdc : env.dirCreateErr with _ | e₀ <;> rw [hdc] at hs
        · simp only at hs
          rcases hdd : env.dirIsDir with _ | _ <;> rw [hdd] at hs <;>
            simp only [Bool.false_eq_true, if_false, if_true] at hs
          · simp only [Option.some.injEq, Prod.mk.injEq, Except.error.injEq] at hs
            obtain ⟨rfl, rfl, rfl⟩ := hs
            simp
          · rcases hlp : (fs.files.lookup
                (flush_path s base env)).isSome with _ | _
            · rw [show ({ fs with dirs := if flush_dir base env ∈ fs.dirs
                  then fs.dirs else flush_dir base env :: fs.dirs } :
                    FileSystem).files = fs.files from rfl] at hs
              rw [show (flush_dir base env ++ [flush_file_name env
                  (s.events.length + 1) (duration_secs_ceil
                    (s.last_event_time.getD 0 - s.first_event_time.getD 0))]) =
                  flush_path s base env from rfl] at hs
              rw [hlp] at hs
              simp only [Bool.false_eq_true, if_false] at hs
              rcases hoe : env.openErr with _ | e₁ <;> rw [hoe] at hs
              · rcases hwe : env.writeErr with _ | e₂ <;> rw [hwe] at hs
                · exact absurd hs (by simp)
                · simp only [Option.some.injEq, Prod.mk.injEq,
                    Except.error.injEq] at hs
                  obtain ⟨rfl, rfl, rfl⟩ := hs
                  simp [hlp]
              · simp only [Option.some.injEq, Prod.mk.injEq,
                  Except.error.injEq] at hs
                obtain ⟨rfl, rfl, rfl⟩ := hs
                simp [hlp]
            · rw [show ({ fs with dirs := if flush_dir base env ∈ fs.dirs
                  then fs.dirs else flush_dir base env :: fs.dirs } :
                    FileSystem).files = fs.files from rfl] at hs
              rw [show (flush_dir base env ++ [flush_file_name env
                  (s.events.length + 1) (duration_secs_ceil
                    (s.last_event_time.getD 0 - s.first_event_time.getD 0))]) =
                  flush_path s base env from rfl] at hs
              rw [hlp] at hs
              simp only [if_true] at hs
              simp only [Option.some.injEq, Prod.mk.injEq,
                Except.error.injEq] at hs
              obtain ⟨rfl, rfl, rfl⟩ := hs
              simp [hlp]
        · simp only [Option.some.injEq, Prod.mk.injEq, Except.error.injEq] at hs
          obtain ⟨rfl, rfl, rfl⟩ := hs
          exact ⟨rfl, rfl⟩
  refine ⟨main.1, main.2, ?_, ?_, ?_⟩ <;> rw [main.2] <;>
    unfold flush_error_session <;>
    rcases env.dirCreateErr with _ | e₀ <;> simp <;>
    rcases env.dirIsDir with _ | _ <;> simp

/-- A permission-denied I/O error used in counterexamples. -/
def permissionErr : IoError := { kind := .permissionDenied, msg := "Permission denied" }

/-- Environment whose only failure is at file creation (`open`). -/
def envOpenFail : FlushEnv := { cleanEnv with openErr := some permissionErr }

/-- Environment whose only failure is at directory creation. -/
def envDirFail : FlushEnv := { cleanEnv with dirCreateErr := some permissionErr }

/-- Claim C1 counterexample: when file creation fails, the error is
propagated but the session state is NOT exactly what it was before the
call — the end-of-track entry has been appended to the buffer, so a retry
would serialize a stray end-of-track marker. -/
theorem c1_error_mutates_buffer :
    sessionOneNote.save_to_file "archive" envOpenFail emptyFS =
      some (Except.error permissionErr,
        { sessionOneNote with events := sessionOneNote.events ++ [endOfTrackEvent] },
        { dirs := [["archive", "2026", "1", "1"]], files := [] }) ∧
    ({ sessionOneNote with events := sessionOneNote.events ++ [endOfTrackEvent] } ≠
      sessionOneNote) :=
  ⟨by decide, by decide⟩

/-- Witness for C1 (amended) at a concrete directory-creation failure. -/
theorem c1_flush_error_unmodified_witness :
    (sessionOneNote.save_to_file "archive" envDirFail emptyFS =
      some (Except.error permissionErr, sessionOneNote, emptyFS)) ∧
    (expected_flush_error sessionOneNote "archive" envDirFail emptyFS =
        some permissionErr ∧
      sessionOneNote = flush_error_session sessionOneNote envDirFail ∧
      sessionOneNote.first_event_time = sessionOneNote.first_event_time ∧
      sessionOneNote.last_event_time = sessionOneNote.last_event_time ∧
      (sessionOneNote.events = sessionOneNote.events ∨
        sessionOneNote.events = sessionOneNote.events ++ [endOfTrackEvent])) :=
  ⟨by decide,
    @c1_flush_error_unmodified sessionOneNote "archive" envDirFail emptyFS
      permissionErr sessionOneNote emptyFS (by decide)⟩

/-- Claim C8 — confirmed. When the computed file name already exists,
flushing a Recording session fails with the distinct `AlreadyExists` error
produced by create-only (`create_new`) open semantics, and the existing
file's content is untouched (only the target directory may have been
created). -/
theorem c8_never_overwrite {s : RecordingSession} {base : String}
    {env : FlushEnv} {fs : FileSystem} (content : List Nat)
    (hfirst : s.first_event_time ≠ none) (hrec : s.events ≠ [])
    (hlast : s.last_event_time ≠ none)
    (hdir : env.dirCreateErr = none) (hisdir : env.dirIsDir = true)
    (hfile : fs.files.lookup (flush_path s base env) = some content) :
    s.save_to_file base env fs =
      some (Except.error { kind := .alreadyExists, msg := "File exists" },
        { s with events := s.events ++ [endOfTrackEvent] },
        { fs with dirs :=
            if flush_dir base env ∈ fs.dirs then fs.dirs
            else flush_dir base env :: fs.dirs }) ∧
    ({ fs with dirs :=
        if flush_dir base env ∈ fs.dirs then fs.dirs
        else flush_dir base env :: fs.dirs } : FileSystem).files.lookup
      (flush_path s base env) = some content := by
  refine ⟨?_, hfile⟩
  obtain ⟨f, hf⟩ := Option.ne_none_iff_exists'.mp hfirst
  obtain ⟨l, hl⟩ := Option.ne_none_iff_exists'.mp hlast
  have hempF : s.events.isEmpty = false := by
    cases hse : s.events with
    | nil => exact absurd hse hrec
    | cons a as => rfl
  unfold flush_path at hfile
  rw [hf, hl] at hfile
  simp only [Option.getD_some] at hfile
  unfold RecordingSession.save_to_file target_directory
  rw [hf, hl, hdir, hisdir, hempF]
  simp [hfile]

/-- A filesystem already holding the file name the witness flush computes. -/
def collisionFS : FileSystem :=
  { dirs := [],
    files := [(["archive", "2026", "1", "1", "2026-01-01_00:00:00-2e-0s.mid"],
      [1, 2, 3])] }

/-- Witness for C8 at a concrete collision. -/
theorem c8_never_overwrite_witness :
    (sessionOneNote.first_event_time ≠ none ∧ sessionOneNote.events ≠ [] ∧
      sessionOneNote.last_event_time ≠ none ∧ cleanEnv.dirCreateErr = none ∧
      cleanEnv.dirIsDir = true ∧
      collisionFS.files.lookup (flush_path sessionOneNote "archive" cleanEnv) =
        some [1, 2, 3]) ∧
    (sessionOneNote.save_to_file "archive" cleanEnv collisionFS =
      some (Except.error { kind := .alreadyExists, msg := "File exists" },
        { sessionOneNote with events := sessionOneNote.events ++ [endOfTrackEvent] },
        { collisionFS with dirs :=
            (if (flush_dir "archive" cleanEnv ∈ collisionFS.dirs) then collisionFS.dirs
            else flush_dir "archive" cleanEnv :: collisionFS.dirs) }) ∧
    ({ collisionFS with dirs :=
        (if (flush_dir "archive" cleanEnv ∈ collisionFS.dirs) then collisionFS.dirs
        else flush_dir "archive" cleanEnv :: collisionFS.dirs) } :
          FileSystem).files.lookup (flush_path sessionOneNote "archive" cleanEnv) =
      some [1, 2, 3]) :=
  ⟨⟨by decide, by decide, by decide, by decide, by decide, by decide⟩,
    c8_never_overwrite [1, 2, 3] (by decide) (by decide) (by decide)
      (by decide) (by decide) (by decide)⟩

/-- Claim C10 counterexample: the callback reads `message[0]` before any
emptiness check, so a delivered zero-length message indexes out of bounds
(modelled as the panic result `none`) — the claim that the leading byte is
inspected only when the message is non-empty is false. -/
theorem c10_empty_message_panics : midi_callback [] = none := rfl

/-- Claim C10 — amended. The callback is total only under the precondition
that the delivered message is non-empty: for every non-empty raw message it
returns an action (filter, drop, or deliver) without panicking. -/
theorem c10_total_on_nonempty (message : List Nat) (h : message ≠ []) :
    (midi_callback message).isSome = true := by
  cases message with
  | nil => exact absurd rfl h
  | cons b rest =>
    have hcb : midi_callback (b :: rest) =
        if b = 0xFE ∨ b = 0xF8 then some CallbackAction.filtered
        else match parse_live_event (b :: rest) with
          | some e => some (CallbackAction.delivered e)
          | none => some CallbackAction.unparsed := rfl
    rw [hcb]
    by_cases hb : b = 0xFE ∨ b = 0xF8
    · rw [if_pos hb]; rfl
    · rw [if_neg hb]
      cases parse_live_event (b :: rest) <;> rfl

/-- Witness for C10 (amended) at a concrete NoteOn message. -/
theorem c10_total_on_nonempty_witness :
    ([0x90, 60, 100] ≠ ([] : List Nat)) ∧
      (midi_callback [0x90, 60, 100]).isSome = true :=
  ⟨by decide, c10_total_on_nonempty [0x90, 60, 100] (by decide)⟩

/-! ## Round-trip of the serialized container (claim C9) -/

theorem vlq_encode_ne_nil (n : Nat) : vlq_encode n ≠ [] := by
  unfold vlq_encode
  split_ifs <;> simp

/-- VLQ round trip for values that fit 28 bits. -/
theorem vlq_round (n : Nat) (hn : n < 2 ^ 28) (rest : List Nat) :
    vlq_decode (vlq_encode n ++ rest) = some (n, rest) := by
  unfold vlq_encode
  split_ifs with h1 h2 h3
  · simp only [List.cons_append, List.nil_append, vlq_decode]
    rw [if_pos h1]
  · have hb1 : ¬ (n / 128 + 128 < 128) := by omega
    have hb2 : n % 128 < 128 := by omega
    simp only [List.cons_append, List.nil_append, vlq_decode]
    rw [if_neg hb1, if_pos hb2]
    simp only [Option.some.injEq, Prod.mk.injEq]
    constructor
    · omega
    · trivial
  · have hb1 : ¬ (n / 128 ^ 2 + 128 < 128) := by omega
    have hb2 : ¬ ((n / 128) % 128 + 128 < 128) := by omega
    have hb3 : n % 128 < 128 := by omega
    simp only [List.cons_append, List.nil_append, vlq_decode]
    rw [if_neg hb1, if_neg hb2, if_pos hb3]
    simp only [Option.some.injEq, Prod.mk.injEq]
    constructor
    · omega
    · trivial
  · have hb1 : ¬ ((n / 128 ^ 3) % 128 + 128 < 128) := by omega
    have hb2 : ¬ ((n / 128 ^ 2) % 128 + 128 < 128) := by omega
    have hb3 : ¬ ((n / 128) % 128 + 128 < 128) := by omega
    have hb4 : n % 128 < 128 := by omega
    simp only [List.cons_append, List.nil_append, vlq_decode]
    rw [if_neg hb1, if_neg hb2, if_neg hb3, if_pos hb4]
    simp only [Option.some.injEq, Prod.mk.injEq]
    constructor
    · have hq : n / 128 ^ 3 < 128 := by omega
      rw [Nat.mod_eq_of_lt hq]
      omega
    · trivial

/-- One-event round trip: a VLQ delta followed by a payload encoding parses
back to the same entry. -/
theorem parse_event_round (d : Nat) (hd : d < 2 ^ 28) (k : TrackEventKind)
    (rest : List Nat) :
    parse_event (vlq_encode d ++ (track_event_bytes k ++ rest)) =
      some ({ delta := d, kind := k }, rest) := by
  unfold parse_event
  rw [vlq_round d hd]
  cases k with
  | metaEndOfTrack =>
    simp [track_event_bytes]
  | midi ch msg =>
    have hch : ch.val < 16 := ch.isLt
    cases msg with
    | noteOff key vel =>
      simp only [track_event_bytes, message_status_data, List.cons_append]
      rw [if_neg (by omega : ¬ (0x80 + ch.val = 0xFF)),
        dif_neg (by omega : ¬ (0x80 + ch.val < 0x80)),
        dif_pos (by omega : 0x80 + ch.val < 0xF0),
        if_pos (by omega : (0x80 + ch.val) / 16 = 8)]
      simp [u7dec, key.isLt, vel.isLt, Fin.ext_iff]
      omega
    | noteOn key vel =>
      simp only [track_event_bytes, message_status_data, List.cons_append]
      rw [if_neg (by omega : ¬ (0x90 + ch.val = 0xFF)),
        dif_neg (by omega : ¬ (0x90 + ch.val < 0x80)),
        dif_pos (by omega : 0x90 + ch.val < 0xF0),
        if_neg (by omega : ¬ ((0x90 + ch.val) / 16 = 8)),
        if_pos (by omega : (0x90 + ch.val) / 16 = 9)]
      simp [u7dec, key.isLt, vel.isLt, Fin.ext_iff]
      omega
    | aftertouch key vel =>
      simp only [track_event_bytes, message_status_data, List.cons_append]
      rw [if_neg (by omega : ¬ (0xA0 + ch.val = 0xFF)),
        dif_neg (by omega : ¬ (0xA0 + ch.val < 0x80)),
        dif_pos (by omega : 0xA0 + ch.val < 0xF0),
        if_neg (by omega : ¬ ((0xA0 + ch.val) / 16 = 8)),
        if_neg (by omega : ¬ ((0xA0 + ch.val) / 16 = 9)),
        if_pos (by omega : (0xA0 + ch.val) / 16 = 10)]
      simp [u7dec, key.isLt, vel.isLt, Fin.ext_iff]
      omega
    | controller ctrl value =>
      simp only [track_event_bytes, message_status_data, List.cons_append]
      rw [if_neg (by omega : ¬ (0xB0 + ch.val = 0xFF)),
        dif_neg (by omega : ¬ (0xB0 + ch.val < 0x80)),
        dif_pos (by omega : 0xB0 + ch.val < 0xF0),
        if_neg (by omega : ¬ ((0xB0 + ch.val) / 16 = 8)),
        if_neg (by omega : ¬ ((0xB0 + ch.val) / 16 = 9)),
        if_neg (by omega : ¬ ((0xB0 + ch.val) / 16 = 10)),
        if_pos (by omega : (0xB0 + ch.val) / 16 = 11)]
      simp [u7dec, ctrl.isLt, value.isLt, Fin.ext_iff]
      omega
    | programChange program =>
      simp only [track_event_bytes, message_status_data, List.cons_append]
      rw [if_neg (by omega : ¬ (0xC0 + ch.val = 0xFF)),
        dif_neg (by omega : ¬ (0xC0 + ch.val < 0x80)),
        dif_pos (by omega : 0xC0 + ch.val < 0xF0),
        if_neg (by omega : ¬ ((0xC0 + ch.val) / 16 = 8)),
        if_neg (by omega : ¬ ((0xC0 + ch.val) / 16 = 9)),
        if_neg (by omega : ¬ ((0xC0 + ch.val) / 16 = 10)),
        if_neg (by omega : ¬ ((0xC0 + ch.val) / 16 = 11)),
        if_pos (by omega : (0xC0 + ch.val) / 16 = 12)]
      simp [u7dec, program.isLt, Fin.ext_iff]
      omega
    | channelAftertouch vel =>
      simp only [track_event_bytes, message_status_data, List.cons_append]
      rw [if_neg (by omega : ¬ (0xD0 + ch.val = 0xFF)),
        dif_neg (by omega : ¬ (0xD0 + ch.val < 0x80)),
        dif_pos (by omega : 0xD0 + ch.val < 0xF0),
        if_neg (by omega : ¬ ((0xD0 + ch.val) / 16 = 8)),
        if_neg (by omega : ¬ ((0xD0 + ch.val) / 16 = 9)),
        if_neg (by omega : ¬ ((0xD0 + ch.val) / 16 = 10)),
        if_neg (by omega : ¬ ((0xD0 + ch.val) / 16 = 11)),
        if_neg (by omega : ¬ ((0xD0 + ch.val) / 16 = 12)),
        if_pos (by omega : (0xD0 + ch.val) / 16 = 13)]
      simp [u7dec, vel.isLt, Fin.ext_iff]
      omega
    | pitchBend bend =>
      have hbl : bend.val % 128 < 128 := by omega
      have hbm : bend.val / 128 < 128 := by
        have := bend.isLt
        omega
      simp only [track_event_bytes, message_status_data, List.cons_append]
      rw [if_neg (by omega : ¬ (0xE0 + ch.val = 0xFF)),
        dif_neg (by omega : ¬ (0xE0 + ch.val < 0x80)),
        dif_pos (by omega : 0xE0 + ch.val < 0xF0),
        if_neg (by omega : ¬ ((0xE0 + ch.val) / 16 = 8)),
        if_neg (by omega : ¬ ((0xE0 + ch.val) / 16 = 9)),
        if_neg (by omega : ¬ ((0xE0 + ch.val) / 16 = 10)),
        if_neg (by omega : ¬ ((0xE0 + ch.val) / 16 = 11)),
        if_neg (by omega : ¬ ((0xE0 + ch.val) / 16 = 12)),
        if_neg (by omega : ¬ ((0xE0 + ch.val) / 16 = 13))]
      simp [u7dec, hbl, hbm, Fin.ext_iff]
      constructor
      · omega
      · have := bend.isLt
        omega

theorem track_data_nil : track_data [] = [] := rfl

theorem track_data_cons (ev : TrackEvent) (evs : List TrackEvent) :
    track_data (ev :: evs) =
      vlq_encode ev.delta ++ (track_event_bytes ev.kind ++ track_data evs) := by
  simp [track_data]

/-- Track-chunk round trip: the serialized events parse back exactly,
given enough fuel (the byte count suffices). -/
theorem parse_events_round (evs : List TrackEvent)
    (hd : ∀ ev ∈ evs, ev.delta < 2 ^ 28) :
    ∀ fuel, (track_data evs).length ≤ fuel →
      parse_events_aux fuel (track_data evs) = some evs := by
  induction evs with
  | nil =>
    intro fuel _
    rw [track_data_nil]
    simp [parse_events_aux]
  | cons ev tl ih =>
    intro fuel hlen
    rw [track_data_cons] at hlen ⊢
    have hne := vlq_encode_ne_nil ev.delta
    have hpe : parse_event (vlq_encode ev.delta ++
        (track_event_bytes ev.kind ++ track_data tl)) =
        some (ev, track_data tl) :=
      parse_event_round ev.delta (hd ev (by simp)) ev.kind (track_data tl)
    cases hv : vlq_encode ev.delta with
    | nil => exact absurd hv hne
    | cons b bs =>
      rw [hv] at hlen hpe
      simp only [List.cons_append] at hpe
      simp only [List.cons_append, List.length_cons, List.length_append] at hlen ⊢
      cases fuel with
      | zero => omega
      | succ fuel' =>
        simp only [parse_events_aux]
        rw [hpe]
        show Option.map (fun evs => ev :: evs) (parse_events_aux fuel' (track_data tl)) =
          some (ev :: tl)
        rw [ih (fun e he => hd e (by simp [he])) fuel' (by omega)]
        rfl

/-- The header and length prefix of `smf_write` in explicit byte form. -/
theorem smf_write_eq (evs : List TrackEvent) :
    smf_write DEFAULT_TICKS_PER_BEAT evs =
      0x4D :: 0x54 :: 0x68 :: 0x64 :: 0 :: 0 :: 0 :: 6 :: 0 :: 0 :: 0 :: 1 ::
      3 :: 232 :: 0x4D :: 0x54 :: 0x72 :: 0x6B ::
      ((track_data evs).length % 2 ^ 32 / 2 ^ 24 % 256) ::
      ((track_data evs).length % 2 ^ 32 / 2 ^ 16 % 256) ::
      ((track_data evs).length % 2 ^ 32 / 2 ^ 8 % 256) ::
      ((track_data evs).length % 2 ^ 32 % 256) :: track_data evs := by
  simp [smf_write, be32, be16, DEFAULT_TICKS_PER_BEAT]

/-- Container round trip: bytes written for a track parse back as a valid
single-track file with metrical division 1000 holding exactly the
serialized events. -/
theorem parse_smf_round (evs : List TrackEvent)
    (hd : ∀ ev ∈ evs, ev.delta < 2 ^ 28)
    (hlen : (track_data evs).length < 2 ^ 32) :
    parse_smf (smf_write DEFAULT_TICKS_PER_BEAT evs) =
      some { format := 0, ntracks := 1, ticksPerBeat := 1000, events := evs } := by
  rw [smf_write_eq]
  simp only [parse_smf]
  rw [if_pos]
  · rw [parse_events_round evs hd (track_data evs).length (Nat.le_refl _)]
    rfl
  · refine ⟨by simp, by simp, by simp, by omega, by omega⟩

/-- On a successful flush of a non-empty session, the newly written file is
the head of the file list and holds exactly the serialized container for
the buffered events plus the end-of-track entry. -/
theorem save_success_bytes {s : RecordingSession} {base : String}
    {env : FlushEnv} {fs : FileSystem} {s' : RecordingSession} {fs' : FileSystem}
    (hrec : s.events ≠ [])
    (hs : s.save_to_file base env fs = some (Except.ok (), s', fs')) :
    fs'.files.head? = some (flush_path s base env,
      smf_write DEFAULT_TICKS_PER_BEAT (s.events ++ [endOfTrackEvent])) := by
  unfold RecordingSession.save_to_file at hs
  split at hs
  · split at hs
    · next hemp => exact absurd (List.isEmpty_iff.mp hemp) hrec
    · exact absurd hs (by simp)
  · split at hs
    · exact absurd hs (by simp)
    · unfold target_directory at hs
      rcases hdc : env.dirCreateErr with _ | e₀ <;> rw [hdc] at hs
      · simp only at hs
        rcases hdd : env.dirIsDir with _ | _ <;> rw [hdd] at hs <;>
          simp only [Bool.false_eq_true, if_false, if_true] at hs
        · exact absurd hs (by simp)
        · split at hs
          · exact absurd hs (by simp)
          · rcases hoe : env.openErr with _ | e₁ <;> rw [hoe] at hs
            · rcases hwe : env.writeErr with _ | e₂ <;> rw [hwe] at hs
              · simp only [Option.some.injEq, Prod.mk.injEq] at hs
                obtain ⟨-, -, rfl⟩ := hs
                rfl
              · exact absurd hs (by simp)
            · exact absurd hs (by simp)
      · exact absurd hs (by simp)

/-- Claim C9 — confirmed. The bytes a successful flush writes for a session
holding N entries parse back as a valid single-track MIDI container with
metrical timing of 1000 ticks per beat whose entries are exactly the N
originals in order (unchanged channel, message content and delta times)
followed by one end-of-track entry with delta 0: N+1 entries, matching
cumulative delta sums. -/
theorem c9_roundtrip {s : RecordingSession} {t : Nat} {base : String}
    {env : FlushEnv} {fs : FileSystem} {s' : RecordingSession} {fs' : FileSystem}
    (h : Reach s t) (hrec : s.events ≠ [])
    (hs : s.save_to_file base env fs = some (Except.ok (), s', fs'))
    (hlen : (track_data (s.events ++ [endOfTrackEvent])).length < 2 ^ 32) :
    fs'.files.head? = some (flush_path s base env,
      smf_write DEFAULT_TICKS_PER_BEAT (s.events ++ [endOfTrackEvent])) ∧
    parse_smf (smf_write DEFAULT_TICKS_PER_BEAT (s.events ++ [endOfTrackEvent])) =
      some { format := 0, ntracks := 1, ticksPerBeat := 1000,
             events := s.events ++ [endOfTrackEvent] } ∧
    (s.events ++ [endOfTrackEvent]).length = s.events.length + 1 ∧
    (s.events ++ [endOfTrackEvent]).getLast? = some endOfTrackEvent ∧
    ((s.events ++ [endOfTrackEvent]).map TrackEvent.delta).sum =
      (s.events.map TrackEvent.delta).sum := by
  have hinv := reach_inv h
  have hd : ∀ ev ∈ s.events ++ [endOfTrackEvent], ev.delta < 2 ^ 28 := by
    intro ev hev
    rcases List.mem_append.mp hev with hm | hm
    · exact hinv.deltas ev hm
    · simp only [List.mem_singleton] at hm
      subst hm
      simp [endOfTrackEvent, u28from]
  exact ⟨save_success_bytes hrec hs, parse_smf_round _ hd hlen, by simp,
    List.getLast?_concat _, by simp [endOfTrackEvent, u28from]⟩

/-- Witness for C9: a concrete one-entry flush whose 30-byte output parses
back to the NoteOn entry plus the end-of-track entry. -/
theorem c9_roundtrip_witness :
    (sessionOneNote.events ≠ [] ∧
      sessionOneNote.save_to_file "archive" cleanEnv emptyFS =
        some (Except.ok (), RecordingSession.new, oneNoteFS) ∧
      (track_data (sessionOneNote.events ++ [endOfTrackEvent])).length < 2 ^ 32) ∧
    (oneNoteFS.files.head? = some (flush_path sessionOneNote "archive" cleanEnv,
      smf_write DEFAULT_TICKS_PER_BEAT (sessionOneNote.events ++ [endOfTrackEvent])) ∧
    parse_smf (smf_write DEFAULT_TICKS_PER_BEAT
        (sessionOneNote.events ++ [endOfTrackEvent])) =
      some { format := 0, ntracks := 1, ticksPerBeat := 1000,
             events := sessionOneNote.events ++ [endOfTrackEvent] } ∧
    (sessionOneNote.events ++ [endOfTrackEvent]).length =
      sessionOneNote.events.length + 1 ∧
    (sessionOneNote.events ++ [endOfTrackEvent]).getLast? = some endOfTrackEvent ∧
    ((sessionOneNote.events ++ [endOfTrackEvent]).map TrackEvent.delta).sum =
      (sessionOneNote.events.map TrackEvent.delta).sum) :=
  ⟨⟨by decide, by decide, by decide⟩,
    @c9_roundtrip sessionOneNote 0 "archive" cleanEnv emptyFS
      RecordingSession.new oneNoteFS
      (Reach.add (.midi 0 (.noteOn 60 100)) (Reach.init 0) (Nat.le_refl 0))
      (by decide) (by decide) (by decide)⟩

end MidiBlackbox
